import Mathlib

/-!
Verification of the service-watchdog reconciliation pass
(`src/service_watchdog.py`) against its design specification.

The script is embedded shallowly:

* Python strings are modelled as `List Char` (`PyStr`), with structurally
  recursive versions of the `str` methods the script uses (`strip`, `lower`,
  `split`, `startswith`), faithful to Python semantics on the ASCII service
  names involved.
* The win32 Service Control Manager is modelled as a deterministic
  environment `Adapter`: a registry mapping service names to status codes,
  two failure oracles (whether a status query raises, whether a start
  request raises), and the result of service enumeration.  Per the adapter
  contract in the specification (§6, §8), a successful start request moves
  the service to the RUNNING state.
* Exceptions become `Except` / `Option` values; `sys.exit(n)` becomes the
  returned exit code; an uncaught exception terminates the Python process
  with exit code 1, which `exitCode` reflects.
* Logging has no effect on control flow or results and is dropped.
-/

deriving instance DecidableEq for Except

namespace ServiceWatchdog

/-- A Python string, as its sequence of characters. -/
abbrev PyStr := List Char

/-- Python `s.strip()`: drop leading and trailing whitespace. -/
def py_strip (s : PyStr) : PyStr :=
  ((s.dropWhile Char.isWhitespace).reverse.dropWhile Char.isWhitespace).reverse

/-- Python `s.lower()` (ASCII case folding, which covers service names). -/
def py_lower (s : PyStr) : PyStr :=
  s.map Char.toLower

/-- Python `s.startswith(p)`. -/
def py_startswith (s p : PyStr) : Bool :=
  List.isPrefixOf p s

/-- Python `s.split(sep)` for a one-character separator; note
`"".split(sep) == [""]`. -/
def py_split (sep : Char) : PyStr → List PyStr
  | [] => [[]]
  | c :: cs =>
    match py_split sep cs with
    | [] => [[c]]
    | g :: gs => if c = sep then [] :: g :: gs else (c :: g) :: gs

/-! ### win32service status constants -/

def SERVICE_STOPPED : Nat := 1
def SERVICE_START_PENDING : Nat := 2
def SERVICE_STOP_PENDING : Nat := 3
def SERVICE_RUNNING : Nat := 4
def SERVICE_CONTINUE_PENDING : Nat := 5
def SERVICE_PAUSE_PENDING : Nat := 6
def SERVICE_PAUSED : Nat := 7

/-- The Service Control Adapter (the `win32service` / `win32serviceutil`
surface the script consumes), modelled as a deterministic environment:

* `registry` maps each existing service name to its current status code;
* `queryFails n` is true when querying `n` raises even though the name may
  exist (access denied, RPC failure, ...) — a missing name always raises;
* `startFails n` is true when a start request for `n` raises;
* `enum` is the outcome of enumerating all registered services as
  `(service_name, display_name, status)` triples, `Except.error` when the
  enumeration (or opening the SCM handle) raises.

Per the specification's adapter contract (§6 `startService`, §8), a start
request that does not raise leaves the service RUNNING; a request that
raises leaves the registry unchanged. -/
structure Adapter where
  registry : List (PyStr × Nat)
  queryFails : PyStr → Bool
  startFails : PyStr → Bool
  enum : Except PyStr (List (PyStr × PyStr × Nat))

/-- `win32serviceutil.QueryServiceStatus(name)`: returns the service status
tuple — index 1 is the current state — or raises.  Tuple fields other than
the current state are unused by the script and modelled as 0. -/
def QueryServiceStatus (a : Adapter) (name : PyStr) : Except PyStr (List Nat) :=
  if a.queryFails name then .error "access denied".toList
  else
    match List.lookup name a.registry with
    | some st => .ok [0, st]
    | none => .error "service does not exist".toList

/-- `get_service_status` (source lines 15–31): the raw status code
`status[1]` on success, `None` on any exception. -/
def get_service_status (a : Adapter) (name : PyStr) : Option Nat :=
  match QueryServiceStatus a name with
  | .ok status => status.get? 1
  | .error _ => none

/-- Overwrite the recorded status of `name` in the registry (no effect when
the name is absent). -/
def setStatus (reg : List (PyStr × Nat)) (name : PyStr) (st : Nat) :
    List (PyStr × Nat) :=
  reg.map fun e => if e.1 = name then (e.1, st) else e

/-- `win32serviceutil.StartService(name)`: raises when the oracle says so,
otherwise the service reaches RUNNING (adapter contract, spec §6/§8). -/
def StartService (a : Adapter) (name : PyStr) : Except PyStr Adapter :=
  if a.startFails name then .error "could not start".toList
  else .ok { a with registry := setStatus a.registry name SERVICE_RUNNING }

/-- `start_service` (source lines 34–52): `True` on success, `False` when
the start raised; the exception never propagates. -/
def start_service (a : Adapter) (name : PyStr) : Bool × Adapter :=
  match StartService a name with
  | .ok a' => (true, a')
  | .error _ => (false, a)

/-- The loop body of `check_and_start_services` (source lines 55–103) with
the accumulator `all_running` made explicit; returns the final verdict and
the adapter state after the pass. -/
def checkLoop (a : Adapter) (services : List PyStr) (all_running : Bool) :
    Bool × Adapter :=
  match services with
  | [] => (all_running, a)
  | name0 :: rest =>
    let name := py_strip name0
    if name = [] then checkLoop a rest all_running
    else
      match get_service_status a name with
      | none => checkLoop a rest all_running
      | some status =>
        if status = SERVICE_RUNNING then checkLoop a rest all_running
        else if status = SERVICE_STOPPED then
          let s := start_service a name
          checkLoop s.2 rest (if s.1 then all_running else false)
        else checkLoop a rest false

/-- `check_and_start_services(services)` (source lines 55–103): starts with
`all_running = True`. -/
def check_and_start_services (a : Adapter) (services : List PyStr) :
    Bool × Adapter :=
  checkLoop a services true

/-- Per-service outcome of one reconciliation step (spec §3
`ServiceOutcome`). -/
inductive ServiceOutcome where
  | AlreadyRunning
  | Started
  | StartFailed
  | NotFoundOrInaccessible
  | UnknownState (status : Nat)
deriving DecidableEq

/-- Instrumented view of the same loop: identical control flow and adapter
effects as `check_and_start_services`, additionally returning the ordered
per-service outcomes and the trace of names passed to `start_service`. -/
def reconcile (a : Adapter) (services : List PyStr) :
    List ServiceOutcome × List PyStr × Adapter :=
  match services with
  | [] => ([], [], a)
  | name0 :: rest =>
    let name := py_strip name0
    if name = [] then reconcile a rest
    else
      match get_service_status a name with
      | none =>
        let r := reconcile a rest
        (.NotFoundOrInaccessible :: r.1, r.2)
      | some status =>
        if status = SERVICE_RUNNING then
          let r := reconcile a rest
          (.AlreadyRunning :: r.1, r.2)
        else if status = SERVICE_STOPPED then
          let s := start_service a name
          let r := reconcile s.2 rest
          ((if s.1 then .Started else .StartFailed) :: r.1, name :: r.2.1, r.2.2)
        else
          let r := reconcile a rest
          (.UnknownState status :: r.1, r.2)

/-- The outcomes that flip the aggregate verdict: `StartFailed` and
`UnknownState` (spec §4.3). -/
def isBad : ServiceOutcome → Bool
  | .StartFailed => true
  | .UnknownState _ => true
  | _ => false

/-- Specification-side aggregator (§4.3): `all healthy` iff no outcome is
`StartFailed` and no outcome is `UnknownState`. -/
def allHealthy (outcomes : List ServiceOutcome) : Bool :=
  outcomes.all fun o => !isBad o

/-- `find_services_with_prefixes` (source lines 106–139): enumerate all
services and keep the names starting, case-insensitively, with one of the
non-empty prefixes; an enumeration failure is logged and re-raised. -/
def find_services_with_prefixes (a : Adapter) (prefixes : List PyStr) :
    Except PyStr (List PyStr) :=
  match a.enum with
  | .error e => .error e
  | .ok listed =>
    let normalized := (prefixes.filter fun p => !p.isEmpty).map py_lower
    .ok ((listed.filter fun svc =>
        normalized.any fun p => py_startswith (py_lower svc.1) p).map
      fun svc => svc.1)

/-- The configuration values `main` reads (spec §6): presence of the
`[services]` section and the two comma-separated option strings, `none`
when the option is absent. -/
structure Config where
  hasServicesSection : Bool
  services_to_monitor : Option PyStr
  service_prefixes : Option PyStr

/-- The list comprehension `[s.strip() for s in str.split(',') if s.strip()]`
used for both config options (source lines 165 and 173). -/
def parseList (s : PyStr) : List PyStr :=
  ((py_split ',' s).map py_strip).filter fun t => !t.isEmpty

/-- The order-preserving de-duplicating extension loop of `main` (source
lines 180–182): append each discovered name not already present. -/
def addNew (services : List PyStr) (found : List PyStr) : List PyStr :=
  found.foldl (fun acc name => if name ∈ acc then acc else acc ++ [name]) services

/-- The names `addNew` actually appends, in order. -/
def newFrom (services : List PyStr) : List PyStr → List PyStr
  | [] => []
  | y :: ys =>
    if y ∈ services then newFrom services ys
    else y :: newFrom (services ++ [y]) ys

/-- Target resolution in `main` (source lines 156–188): `Except.error` when
prefix discovery raises; `.ok none` when the config section or required
option is missing (`sys.exit(1)` before any target exists); otherwise
`.ok (some target)`. -/
def resolveTarget (cfg : Config) (a : Adapter) :
    Except PyStr (Option (List PyStr)) :=
  if !cfg.hasServicesSection then .ok none
  else
    match cfg.services_to_monitor with
    | none => .ok none
    | some sstr =>
      let services := parseList sstr
      match cfg.service_prefixes with
      | none => .ok (some services)
      | some pstr =>
        let prefixes := parseList pstr
        if prefixes.isEmpty then .ok (some services)
        else
          match find_services_with_prefixes a prefixes with
          | .error e => .error e
          | .ok found => .ok (some (addNew services found))

/-- `main` (source lines 142–202), reduced to its observable result: the
exit code together with the pass record (outcomes and start-call trace),
`none` when the pass never ran; `Except.error` when prefix discovery
raised and the exception escaped `main`. -/
def mainRun (cfg : Config) (a : Adapter) :
    Except PyStr (Nat × Option (List ServiceOutcome × List PyStr)) :=
  match resolveTarget cfg a with
  | .error e => .error e
  | .ok none => .ok (1, none)
  | .ok (some services) =>
    if services.length = 0 then .ok (1, none)
    else
      let r := reconcile a services
      .ok ((if (check_and_start_services a services).1 then 0 else 1),
        some (r.1, r.2.1))

/-- The process exit code: the code `main` exits with, or 1 when an
uncaught exception terminates the interpreter. -/
def exitCode : Except PyStr (Nat × Option (List ServiceOutcome × List PyStr)) → Nat
  | .error _ => 1
  | .ok r => r.1

/-! ### Concrete fixtures used by witnesses and counterexamples -/

/-- One service "A", currently stopped; every start request raises;
enumeration returns no services. -/
def cexAdapter : Adapter :=
  { registry := [("A".toList, SERVICE_STOPPED)]
    queryFails := fun _ => false
    startFails := fun _ => true
    enum := .ok [] }

/-- Configuration listing the same service name twice. -/
def cfgDup : Config :=
  { hasServicesSection := true
    services_to_monitor := some "A,A".toList
    service_prefixes := none }

/-- Empty registry; enumeration lists services "App1" and "Other". -/
def discAdapter : Adapter :=
  { registry := []
    queryFails := fun _ => false
    startFails := fun _ => false
    enum := .ok [("App1".toList, "App One".toList, SERVICE_RUNNING),
                 ("Other".toList, "Other Svc".toList, SERVICE_RUNNING)] }

/-- An adapter whose service enumeration raises. -/
def enumFailAdapter : Adapter :=
  { registry := [("A".toList, SERVICE_RUNNING)]
    queryFails := fun _ => false
    startFails := fun _ => false
    enum := .error "OpenSCManager failed".toList }

/-- One service "Spooler", currently stopped; starting it succeeds. -/
def wStart : Adapter :=
  { registry := [("Spooler".toList, SERVICE_STOPPED)]
    queryFails := fun _ => false
    startFails := fun _ => false
    enum := .ok [] }

/-- One service "Svc1", already running. -/
def wRun : Adapter :=
  { registry := [("Svc1".toList, SERVICE_RUNNING)]
    queryFails := fun _ => false
    startFails := fun _ => false
    enum := .ok [] }

/-! ### Relating the verdict loop to the instrumented reconciliation -/

theorem checkLoop_eq_reconcile (services : List PyStr) :
    ∀ (a : Adapter) (acc : Bool),
      checkLoop a services acc =
        (acc && allHealthy (reconcile a services).1, (reconcile a services).2.2) := by
  induction services with
  | nil => intro a acc; simp [checkLoop, reconcile, allHealthy]
  | cons name0 rest ih =>
    intro a acc
    simp only [checkLoop, reconcile]
    by_cases h0 : py_strip name0 = []
    · simp only [if_pos h0]; rw [ih]
    · simp only [if_neg h0]
      cases hq : get_service_status a (py_strip name0) with
      | none => rw [ih]; simp [allHealthy, isBad]
      | some status =>
        by_cases hr : status = SERVICE_RUNNING
        · simp only [if_pos hr]; rw [ih]; simp [allHealthy, isBad]
        · simp only [if_neg hr]
          by_cases hs : status = SERVICE_STOPPED
          · simp only [if_pos hs]
            rw [ih]
            cases hok : (start_service a (py_strip name0)).1 <;>
              simp [hok, allHealthy, isBad, Bool.and_assoc]
          · simp only [if_neg hs]
            rw [ih]
            simp [allHealthy, isBad]

theorem isBad_eq_false_iff (o : ServiceOutcome) :
    isBad o = false ↔ o ≠ .StartFailed ∧ ∀ st, o ≠ .UnknownState st := by
  cases o <;> simp [isBad]

theorem allHealthy_eq_true_iff (outcomes : List ServiceOutcome) :
    allHealthy outcomes = true ↔
      ∀ o ∈ outcomes, o ≠ .StartFailed ∧ ∀ st, o ≠ .UnknownState st := by
  simp [allHealthy, List.all_eq_true, ← isBad_eq_false_iff]

/-- C1: the aggregated verdict of a pass is true iff no per-service outcome
is StartFailed and none is UnknownState (NotFoundOrInaccessible alone never
makes it false), and the process exits with code 0 exactly when the pass is
fully healthy and with code 1 otherwise. -/
theorem verdict_iff_no_bad_outcome_and_exit_code
    (a : Adapter) (svcs : List PyStr) (cfg : Config) :
    ((check_and_start_services a svcs).1 = true ↔
      ∀ o ∈ (reconcile a svcs).1, o ≠ .StartFailed ∧ ∀ st, o ≠ .UnknownState st)
    ∧ (exitCode (mainRun cfg a) = 0 ↔
        ∃ target, resolveTarget cfg a = .ok (some target) ∧ target ≠ [] ∧
          allHealthy (reconcile a target).1 = true)
    ∧ (exitCode (mainRun cfg a) = 0 ∨ exitCode (mainRun cfg a) = 1) := by
  have hmain : ∀ target, resolveTarget cfg a = .ok (some target) →
      target.length ≠ 0 →
      exitCode (mainRun cfg a) =
        (if allHealthy (reconcile a target).1 then 0 else 1) := by
    intro target hres hlen
    have hcheck := checkLoop_eq_reconcile target a true
    simp only [mainRun, hres, if_neg hlen, exitCode, check_and_start_services,
      hcheck, Bool.true_and]
  refine ⟨?_, ?_, ?_⟩
  · rw [check_and_start_services, checkLoop_eq_reconcile]
    simp [allHealthy_eq_true_iff]
  · cases hres : resolveTarget cfg a with
    | error e => simp [mainRun, hres, exitCode]
    | ok o =>
      cases o with
      | none => simp [mainRun, hres, exitCode]
      | some target =>
        by_cases hlen : target.length = 0
        · have ht : target = [] := List.length_eq_zero.mp hlen
          subst ht
          simp [mainRun, hres, exitCode]
        · rw [hmain target hres hlen]
          constructor
          · intro h
            by_cases hh : allHealthy (reconcile a target).1 = true
            · exact ⟨target, rfl, fun he => hlen (by simp [he]), hh⟩
            · simp [hh] at h
          · rintro ⟨t, ht, hne, hall⟩
            have : t = target :=
              (Option.some_injective _ (Except.ok.inj ht)).symm
            subst this
            simp [hall]
  · cases hres : resolveTarget cfg a with
    | error e => simp [mainRun, hres, exitCode]
    | ok o =>
      cases o with
      | none => simp [mainRun, hres, exitCode]
      | some target =>
        by_cases hlen : target.length = 0
        · simp [mainRun, hres, hlen, exitCode]
        · rw [hmain target hres hlen]
          by_cases hh : allHealthy (reconcile a target).1 = true <;> simp [hh]

/-! ### Start-call discipline -/

theorem count_startCalls_le (svcs : List PyStr) :
    ∀ (a : Adapter) (n : PyStr),
      List.count n (reconcile a svcs).2.1 ≤ List.count n (svcs.map py_strip) := by
  induction svcs with
  | nil => intro a n; simp [reconcile]
  | cons name0 rest ih =>
    intro a n
    simp only [reconcile, List.map_cons]
    by_cases h0 : py_strip name0 = []
    · simp only [if_pos h0]
      exact le_trans (ih a n) (List.count_le_count_cons n _ _)
    · simp only [if_neg h0]
      cases hq : get_service_status a (py_strip name0) with
      | none => exact le_trans (ih a n) (List.count_le_count_cons n _ _)
      | some status =>
        by_cases hr : status = SERVICE_RUNNING
        · simp only [if_pos hr]
          exact le_trans (ih a n) (List.count_le_count_cons n _ _)
        · simp only [if_neg hr]
          by_cases hs : status = SERVICE_STOPPED
          · simp only [if_pos hs]
            by_cases hn : n = py_strip name0
            · subst hn
              rw [List.count_cons_self, List.count_cons_self]
              exact Nat.add_le_add_right (ih _ _) 1
            · rw [List.count_cons_of_ne hn, List.count_cons_of_ne hn]
              exact ih _ n
          · simp only [if_neg hs]
            exact le_trans (ih a n) (List.count_le_count_cons n _ _)

theorem count_le_one_of_nodup (l : List PyStr) (h : l.Nodup) (n : PyStr) :
    List.count n l ≤ 1 := by
  induction l with
  | nil => simp
  | cons x xs ih =>
    rw [List.nodup_cons] at h
    by_cases hn : n = x
    · subst hn
      rw [List.count_cons_self]
      have hz : List.count n xs = 0 := List.count_eq_zero.mpr h.1
      omega
    · rw [List.count_cons_of_ne hn]
      exact ih h.2

/-- C2 counterexample: with the duplicated resolved target ["A", "A"],
service "A" stopped and its start attempt raising, `start_service` is
invoked twice for the single name "A" within one pass. -/
theorem start_called_twice_for_duplicated_name :
    (reconcile cexAdapter ["A".toList, "A".toList]).2.1 = ["A".toList, "A".toList]
    ∧ ¬ List.count "A".toList (reconcile cexAdapter ["A".toList, "A".toList]).2.1 ≤ 1 := by
  decide

/-- C2 (amended): within one pass the start action is issued at most once
per occurrence of a name in the target list — hence at most once per name
whenever the trimmed target is duplicate-free — and only for a service
whose queried status is STOPPED: a RUNNING, pending/paused or unrecognized
status, a failed query, and an empty name all leave the start trace
untouched. -/
theorem start_only_for_stopped_at_most_once_per_occurrence
    (a : Adapter) (name : PyStr) (rest svcs : List PyStr) :
    (py_strip name = [] → (reconcile a (name :: rest)).2.1 = (reconcile a rest).2.1)
    ∧ (get_service_status a (py_strip name) = none →
        (reconcile a (name :: rest)).2.1 = (reconcile a rest).2.1)
    ∧ (∀ st, get_service_status a (py_strip name) = some st → st ≠ SERVICE_STOPPED →
        (reconcile a (name :: rest)).2.1 = (reconcile a rest).2.1)
    ∧ (py_strip name ≠ [] → get_service_status a (py_strip name) = some SERVICE_STOPPED →
        (reconcile a (name :: rest)).2.1 =
          py_strip name :: (reconcile (start_service a (py_strip name)).2 rest).2.1)
    ∧ (∀ n, List.count n (reconcile a svcs).2.1 ≤ List.count n (svcs.map py_strip))
    ∧ ((svcs.map py_strip).Nodup → ∀ n, List.count n (reconcile a svcs).2.1 ≤ 1) := by
  refine ⟨?_, ?_, ?_, ?_, count_startCalls_le svcs a, ?_⟩
  · intro h0; simp [reconcile, h0]
  · intro hq
    by_cases h0 : py_strip name = []
    · simp [reconcile, h0]
    · simp [reconcile, h0, hq]
  · intro st hq hst
    by_cases h0 : py_strip name = []
    · simp [reconcile, h0]
    · by_cases hr : st = SERVICE_RUNNING
      · simp [reconcile, h0, hq, hr]
      · simp [reconcile, h0, hq, hr, hst]
  · intro h0 hq
    have hne : SERVICE_STOPPED ≠ SERVICE_RUNNING := by decide
    simp [reconcile, h0, hq, hne]
  · intro hnd n
    exact le_trans (count_startCalls_le svcs a n)
      (count_le_one_of_nodup _ hnd n)

theorem start_only_for_stopped_witness :
    (reconcile wStart ["Spooler".toList]).2.1 =
      py_strip "Spooler".toList ::
        (reconcile (start_service wStart (py_strip "Spooler".toList)).2 []).2.1 :=
  (start_only_for_stopped_at_most_once_per_occurrence wStart "Spooler".toList [] []).2.2.2.1
    (by decide) (by decide)

/-- C5: a failed status query (absent service, access denied, any error)
yields the outcome NotFoundOrInaccessible, reconciliation continues with
the remaining names from an unchanged adapter state, and this outcome
alone never makes the verdict false. -/
theorem query_failure_not_fatal (a : Adapter) (name : PyStr) (rest : List PyStr)
    (h1 : py_strip name ≠ [])
    (h2 : get_service_status a (py_strip name) = none) :
    (reconcile a (name :: rest)).1 =
      ServiceOutcome.NotFoundOrInaccessible :: (reconcile a rest).1
    ∧ (reconcile a (name :: rest)).2 = (reconcile a rest).2
    ∧ (check_and_start_services a (name :: rest)).1 =
        (check_and_start_services a rest).1 := by
  have hout : (reconcile a (name :: rest)).1 =
      ServiceOutcome.NotFoundOrInaccessible :: (reconcile a rest).1 := by
    simp [reconcile, h1, h2]
  refine ⟨hout, by simp [reconcile, h1, h2], ?_⟩
  simp only [check_and_start_services, checkLoop_eq_reconcile, hout]
  simp [allHealthy, isBad]

theorem query_failure_not_fatal_witness :
    (reconcile discAdapter ["Ghost".toList]).1 =
      ServiceOutcome.NotFoundOrInaccessible :: (reconcile discAdapter []).1 :=
  (query_failure_not_fatal discAdapter "Ghost".toList [] (by decide) (by decide)).1

/-! ### Target resolution -/

theorem addNew_eq_append (found : List PyStr) :
    ∀ services, addNew services found = services ++ newFrom services found := by
  induction found with
  | nil => intro s; simp [addNew, newFrom]
  | cons y ys ih =>
    intro s
    simp only [addNew, List.foldl_cons]
    by_cases h : y ∈ s
    · rw [if_pos h]
      show addNew s ys = s ++ newFrom s (y :: ys)
      rw [ih s]
      simp [newFrom, h]
    · rw [if_neg h]
      show addNew (s ++ [y]) ys = s ++ newFrom s (y :: ys)
      rw [ih (s ++ [y])]
      simp [newFrom, h, List.append_assoc]

theorem newFrom_spec (found : List PyStr) :
    ∀ services,
      (newFrom services found).Sublist found
      ∧ (newFrom services found).Nodup
      ∧ (∀ n, n ∈ newFrom services found ↔ n ∈ found ∧ n ∉ services) := by
  induction found with
  | nil => intro s; simp [newFrom]
  | cons y ys ih =>
    intro s
    by_cases h : y ∈ s
    · simp only [newFrom, if_pos h]
      obtain ⟨h1, h2, h3⟩ := ih s
      refine ⟨h1.trans (List.sublist_cons_self y ys), h2, fun n => ?_⟩
      rw [h3 n]
      constructor
      · rintro ⟨hy, hn⟩
        exact ⟨List.mem_cons_of_mem _ hy, hn⟩
      · rintro ⟨hy, hn⟩
        rcases List.mem_cons.mp hy with rfl | hy'
        · exact absurd h hn
        · exact ⟨hy', hn⟩
    · simp only [newFrom, if_neg h]
      obtain ⟨h1, h2, h3⟩ := ih (s ++ [y])
      refine ⟨List.Sublist.cons₂ y h1, ?_, fun n => ?_⟩
      · rw [List.nodup_cons]
        refine ⟨fun hy => ?_, h2⟩
        exact ((h3 y).mp hy).2 (by simp)
      · rw [List.mem_cons, h3 n]
        constructor
        · rintro (rfl | ⟨hys, hns⟩)
          · exact ⟨List.mem_cons_self _ _, h⟩
          · exact ⟨List.mem_cons_of_mem _ hys, fun hn => hns (by simp [hn])⟩
        · rintro ⟨hy, hn⟩
          by_cases hny : n = y
          · exact Or.inl hny
          · have hy' : n ∈ ys := by
              rcases List.mem_cons.mp hy with h' | h'
              · exact absurd h' hny
              · exact h'
            refine Or.inr ⟨hy', fun hmem => ?_⟩
            rcases List.mem_append.mp hmem with h' | h'
            · exact hn h'
            · exact hny (List.mem_singleton.mp h')

theorem parseList_filter_nonempty (s : PyStr) :
    (parseList s).filter (fun t => !t.isEmpty) = parseList s := by
  simp [parseList, List.filter_filter]

/-- C3 counterexample: with the explicit name list "A,A" and no prefixes,
the resolved target is ["A", "A"] — the name "A" appears twice, so the
resolved target is not duplicate-free. -/
theorem resolver_keeps_duplicate_explicit_names :
    resolveTarget cfgDup cexAdapter = .ok (some ["A".toList, "A".toList])
    ∧ ¬ (["A".toList, "A".toList] : List PyStr).Nodup := by
  exact ⟨by decide, by decide⟩

/-- C3 (amended): the resolved target is the trimmed explicit names in
their given order — duplicates inside the explicit list are preserved —
followed by the prefix-discovered names in enumeration order, where a
discovered service matches iff its name starts with some configured prefix
compared case-insensitively; discovery adds no name that duplicates an
explicit name or an earlier discovered name. -/
theorem resolver_order_dedup_amended (sstr pstr : PyStr) (a : Adapter)
    (found : List PyStr)
    (h : find_services_with_prefixes a (parseList pstr) = .ok found) :
    resolveTarget ⟨true, some sstr, some pstr⟩ a =
      .ok (some (parseList sstr ++ newFrom (parseList sstr) found))
    ∧ (newFrom (parseList sstr) found).Sublist found
    ∧ (newFrom (parseList sstr) found).Nodup
    ∧ (∀ n, n ∈ newFrom (parseList sstr) found ↔ n ∈ found ∧ n ∉ parseList sstr)
    ∧ (∀ listed, a.enum = .ok listed →
        found = (listed.filter fun svc =>
            (parseList pstr).any fun p =>
              py_startswith (py_lower svc.1) (py_lower p)).map fun svc => svc.1) := by
  obtain ⟨hsub, hnd, hmem⟩ := newFrom_spec found (parseList sstr)
  refine ⟨?_, hsub, hnd, hmem, ?_⟩
  · by_cases hp : (parseList pstr).isEmpty
    · have hpe : parseList pstr = [] := by
        simpa [List.isEmpty_iff] using hp
      have hfound : found = [] := by
        rw [hpe] at h
        cases henum : a.enum with
        | error e => rw [find_services_with_prefixes, henum] at h; cases h
        | ok listed =>
          rw [find_services_with_prefixes, henum] at h
          simpa using (Except.ok.inj h).symm
      subst hfound
      simp [resolveTarget, hp, newFrom]
    · simp [resolveTarget, hp, h, addNew_eq_append]
  · intro listed henum
    rw [find_services_with_prefixes, henum] at h
    have h' := (Except.ok.inj h).symm
    rw [h', parseList_filter_nonempty]
    simp [List.any_map, Function.comp_def]

theorem resolver_order_dedup_witness :
    resolveTarget ⟨true, some "A,B".toList, some "Ap".toList⟩ discAdapter =
      .ok (some (parseList "A,B".toList ++
        newFrom (parseList "A,B".toList) ["App1".toList])) :=
  (resolver_order_dedup_amended "A,B".toList "Ap".toList discAdapter
    ["App1".toList] (by decide)).1

/-- C4: when prefixes are configured and the adapter's enumeration raises,
the failure is fatal to the whole pass: discovery surfaces the error rather
than an empty list, the error propagates out of main so no reconciliation
is attempted, and the process terminates with exit code 1. -/
theorem enum_failure_fatal (cfg : Config) (a : Adapter) (e sstr pstr : PyStr)
    (h1 : cfg.hasServicesSection = true)
    (h2 : cfg.services_to_monitor = some sstr)
    (h3 : cfg.service_prefixes = some pstr)
    (h4 : (parseList pstr).isEmpty = false)
    (h5 : a.enum = .error e) :
    find_services_with_prefixes a (parseList pstr) = .error e
    ∧ mainRun cfg a = .error e
    ∧ (∀ r, mainRun cfg a ≠ .ok r)
    ∧ exitCode (mainRun cfg a) = 1 := by
  have hfind : find_services_with_prefixes a (parseList pstr) = .error e := by
    rw [find_services_with_prefixes, h5]
  have hres : resolveTarget cfg a = .error e := by
    rw [resolveTarget, h1, h2, h3]
    simp [h4, hfind]
  have hmain : mainRun cfg a = .error e := by
    rw [mainRun, hres]
  exact ⟨hfind, hmain, fun r hr => by simp [hmain] at hr, by simp [exitCode, hmain]⟩

theorem enum_failure_fatal_witness :
    mainRun ⟨true, some "A".toList, some "Ap".toList⟩ enumFailAdapter =
      .error "OpenSCManager failed".toList :=
  (enum_failure_fatal ⟨true, some "A".toList, some "Ap".toList⟩ enumFailAdapter
    "OpenSCManager failed".toList "A".toList "Ap".toList rfl rfl rfl
    (by decide) rfl).2.1

/-- C6: a resolved target with zero names is refused as a configuration
error: main returns exit code 1 with no pass record, i.e. the
reconciliation engine never runs on an empty target. -/
theorem empty_target_refused (cfg : Config) (a : Adapter)
    (h : resolveTarget cfg a = .ok (some [])) :
    mainRun cfg a = .ok (1, none) ∧ exitCode (mainRun cfg a) = 1 := by
  have hm : mainRun cfg a = .ok (1, none) := by simp [mainRun, h]
  exact ⟨hm, by simp [exitCode, hm]⟩

theorem empty_target_refused_witness :
    mainRun ⟨true, some " , ".toList, none⟩ discAdapter = .ok (1, none) :=
  (empty_target_refused ⟨true, some " , ".toList, none⟩ discAdapter (by decide)).1

/-! ### Effect of a successful start on the registry -/

theorem lookup_setStatus (m : PyStr) (st : Nat) (n : PyStr) :
    ∀ reg : List (PyStr × Nat),
      List.lookup n (setStatus reg m st) =
        (List.lookup n reg).map fun old => if n = m then st else old := by
  intro reg
  induction reg with
  | nil => simp [setStatus]
  | cons e reg ih =>
    rcases e with ⟨k, v⟩
    simp only [setStatus, List.map_cons]
    by_cases hn : n = k
    · subst hn
      by_cases hm : n = m <;> simp [List.lookup_cons, hm]
    · have hb : (n == k) = false := beq_eq_false_iff_ne.mpr hn
      by_cases hm : k = m
      · simp only [setStatus, List.map_cons, if_pos hm, List.lookup_cons, hb]
        exact ih
      · simp only [setStatus, List.map_cons, if_neg hm, List.lookup_cons, hb]
        exact ih

theorem get_service_status_eq_some_iff (a : Adapter) (n : PyStr) (st : Nat) :
    get_service_status a n = some st ↔
      a.queryFails n = false ∧ List.lookup n a.registry = some st := by
  unfold get_service_status QueryServiceStatus
  by_cases hf : a.queryFails n = true
  · simp [hf]
  · cases hl : List.lookup n a.registry with
    | none => simp [hf, hl]
    | some x => simp [hf, hl, List.get?]

theorem get_status_after_start (a : Adapter) (m n : PyStr)
    (h : get_service_status a n = some SERVICE_RUNNING) :
    get_service_status (start_service a m).2 n = some SERVICE_RUNNING := by
  obtain ⟨hf, hl⟩ := (get_service_status_eq_some_iff a n SERVICE_RUNNING).mp h
  unfold start_service StartService
  by_cases hs : a.startFails m = true
  · simpa [hs] using h
  · simp only [hs, Bool.false_eq_true, if_false, if_neg]
    apply (get_service_status_eq_some_iff _ n SERVICE_RUNNING).mpr
    refine ⟨hf, ?_⟩
    rw [lookup_setStatus, hl]
    simp

theorem running_preserved (svcs : List PyStr) :
    ∀ (a : Adapter) (n : PyStr),
      get_service_status a n = some SERVICE_RUNNING →
      get_service_status (reconcile a svcs).2.2 n = some SERVICE_RUNNING := by
  induction svcs with
  | nil => intro a n h; simpa [reconcile] using h
  | cons name0 rest ih =>
    intro a n h
    simp only [reconcile]
    by_cases h0 : py_strip name0 = []
    · simp only [if_pos h0]; exact ih a n h
    · simp only [if_neg h0]
      cases hq : get_service_status a (py_strip name0) with
      | none => exact ih a n h
      | some status =>
        by_cases hr : status = SERVICE_RUNNING
        · simp only [if_pos hr]; exact ih a n h
        · simp only [if_neg hr]
          by_cases hs : status = SERVICE_STOPPED
          · simp only [if_pos hs]
            exact ih _ n (get_status_after_start a _ n h)
          · simp only [if_neg hs]
            exact ih a n h

/-- C7: a target service whose queried status is STOPPED and whose start
request succeeds gets the outcome Started, the start call is issued for it,
and a follow-up status query — even after the rest of the pass — returns
RUNNING. -/
theorem stopped_started_then_running (a : Adapter) (name : PyStr)
    (rest : List PyStr)
    (h1 : py_strip name ≠ [])
    (h2 : get_service_status a (py_strip name) = some SERVICE_STOPPED)
    (h3 : a.startFails (py_strip name) = false) :
    (reconcile a (name :: rest)).1.head? = some .Started
    ∧ (reconcile a (name :: rest)).2.1.head? = some (py_strip name)
    ∧ get_service_status (reconcile a (name :: rest)).2.2 (py_strip name) =
        some SERVICE_RUNNING := by
  have hok : start_service a (py_strip name) =
      (true, { a with
        registry := setStatus a.registry (py_strip name) SERVICE_RUNNING }) := by
    simp [start_service, StartService, h3]
  have hne : SERVICE_STOPPED ≠ SERVICE_RUNNING := by decide
  have hrun : get_service_status
      { a with registry := setStatus a.registry (py_strip name) SERVICE_RUNNING }
      (py_strip name) = some SERVICE_RUNNING := by
    obtain ⟨hf, hl⟩ := (get_service_status_eq_some_iff a _ _).mp h2
    exact (get_service_status_eq_some_iff _ _ _).mpr
      ⟨hf, by rw [lookup_setStatus, hl]; simp⟩
  refine ⟨?_, ?_, ?_⟩
  · simp [reconcile, h1, h2, hne, hok]
  · simp [reconcile, h1, h2, hne, hok]
  · have h22 : (reconcile a (name :: rest)).2.2 =
        (reconcile { a with
          registry := setStatus a.registry (py_strip name) SERVICE_RUNNING }
          rest).2.2 := by
      simp [reconcile, h1, h2, hne, hok]
    rw [h22]
    exact running_preserved rest _ _ hrun

theorem stopped_started_then_running_witness :
    get_service_status (reconcile wStart ["Spooler".toList]).2.2
      (py_strip "Spooler".toList) = some SERVICE_RUNNING :=
  (stopped_started_then_running wStart "Spooler".toList []
    (by decide) (by decide) rfl).2.2

/-! ### Idempotence on a healthy target -/

theorem reconcile_all_running (svcs : List PyStr) :
    ∀ a : Adapter,
      (∀ s ∈ svcs, py_strip s ≠ [] ∧
        get_service_status a (py_strip s) = some SERVICE_RUNNING) →
      reconcile a svcs = (svcs.map fun _ => ServiceOutcome.AlreadyRunning, [], a) := by
  induction svcs with
  | nil => intro a _; simp [reconcile]
  | cons s rest ih =>
    intro a h
    obtain ⟨h1, h2⟩ := h s (List.mem_cons_self s rest)
    have hrest := fun t ht => h t (List.mem_cons_of_mem s ht)
    simp [reconcile, h1, h2, ih a hrest]

/-- C8: reconciliation is idempotent on a healthy target: when every target
service queries RUNNING, both the first pass and a second pass over the
resulting adapter state give AlreadyRunning for every service, issue no
start calls, leave the state unchanged, and report a healthy verdict. -/
theorem reconcile_idempotent_on_running (a : Adapter) (svcs : List PyStr)
    (h : ∀ s ∈ svcs, py_strip s ≠ [] ∧
      get_service_status a (py_strip s) = some SERVICE_RUNNING) :
    reconcile a svcs = (svcs.map fun _ => ServiceOutcome.AlreadyRunning, [], a)
    ∧ reconcile (reconcile a svcs).2.2 svcs =
        (svcs.map fun _ => ServiceOutcome.AlreadyRunning, [], a)
    ∧ (check_and_start_services a svcs).1 = true
    ∧ (check_and_start_services (reconcile a svcs).2.2 svcs).1 = true := by
  have h1 := reconcile_all_running svcs a h
  have h22 : (reconcile a svcs).2.2 = a := by rw [h1]
  have hAH : allHealthy (List.replicate svcs.length ServiceOutcome.AlreadyRunning) = true := by
    simp [allHealthy, List.all_eq_true, List.mem_replicate, isBad]
  refine ⟨h1, by rw [h22]; exact h1, ?_, ?_⟩
  · rw [check_and_start_services, checkLoop_eq_reconcile, h1]
    simp [hAH]
  · rw [h22, check_and_start_services, checkLoop_eq_reconcile, h1]
    simp [hAH]

theorem reconcile_idempotent_witness :
    reconcile wRun ["Svc1".toList] =
      (["Svc1".toList].map fun _ => ServiceOutcome.AlreadyRunning, [], wRun) :=
  (reconcile_idempotent_on_running wRun ["Svc1".toList] (by decide)).1

/-- C9: the status-query helper is total with respect to adapter failures:
for every service name and adapter behavior it returns a value — the raw
status tuple entry 1 when the underlying query succeeds, `none` when it
raises — and never propagates an exception. -/
theorem get_service_status_total (a : Adapter) (name : PyStr) :
    (∃ t, QueryServiceStatus a name = .ok t ∧ get_service_status a name = t.get? 1)
    ∨ (∃ e, QueryServiceStatus a name = .error e ∧ get_service_status a name = none) := by
  cases h : QueryServiceStatus a name with
  | ok t => exact Or.inl ⟨t, rfl, by simp [get_service_status, h]⟩
  | error e => exact Or.inr ⟨e, rfl, by simp [get_service_status, h]⟩

/-- C10: prefix discovery ignores empty prefixes: the discovered set is the
same as with the empty strings removed — so an empty prefix never selects
every enumerated service — and when every prefix is empty the discovery
result is empty no matter what the enumeration returns. -/
theorem empty_prefixes_ignored (a : Adapter) (prefixes : List PyStr) :
    find_services_with_prefixes a prefixes =
      find_services_with_prefixes a (prefixes.filter fun p => !p.isEmpty)
    ∧ ((∀ p ∈ prefixes, p = []) →
        ∀ listed, a.enum = .ok listed →
          find_services_with_prefixes a prefixes = .ok []) := by
  constructor
  · have hff : ((prefixes.filter fun p => !p.isEmpty).filter fun p => !p.isEmpty) =
        prefixes.filter fun p => !p.isEmpty := by
      rw [List.filter_filter]
      simp
    cases h : a.enum with
    | error e => simp [find_services_with_prefixes, h]
    | ok listed => simp [find_services_with_prefixes, h, hff]
  · intro hall listed h
    have hnil : (prefixes.filter fun p => !p.isEmpty) = [] := by
      rw [List.filter_eq_nil_iff]
      intro p hp
      simp [hall p hp]
    simp [find_services_with_prefixes, h, hnil]

theorem empty_prefixes_ignored_witness :
    find_services_with_prefixes discAdapter [([] : PyStr)] = .ok [] :=
  (empty_prefixes_ignored discAdapter [([] : PyStr)]).2 (by decide)
    [("App1".toList, "App One".toList, SERVICE_RUNNING),
     ("Other".toList, "Other Svc".toList, SERVICE_RUNNING)] rfl

end ServiceWatchdog
